import Mathlib

/-!
Shallow embedding of the ConvFinQA evaluation pipeline
(src/app/data_parser.py, src/app/evaluator.py, src/app/model_loader.py,
src/app/generate_responses.py, src/app/prompting.py) and proofs about it.

Machine floats are modelled exactly over `ℚ`; Python strings are Lean
`String`s; fallible constructors return `Except`/`Option`.
-/

/-- Conversation record, from `ConvQA` in src/app/data_parser.py.
Field types follow the pydantic declarations: `questions`, `answers` and
`formatted_llm_response` are lists of strings, `llm_response` is an
optional string. -/
structure ConvQA where
  id : String
  doc : String
  questions : List String
  answers : List String
  llm_response : Option String
  formatted_llm_response : List String
deriving Repr, DecidableEq

/-- Pydantic construction of a `ConvQA`, from src/app/data_parser.py:
field constraints `min_length=1` on `id`, `doc`, `questions`, `answers`,
then `model_post_init` rejecting a questions/answers length mismatch.
`llm_response` defaults to `None` and `formatted_llm_response` to `[]`. -/
def mkConvQA (id doc : String) (questions answers : List String) :
    Except String ConvQA :=
  if id.length < 1 then .error "id: String should have at least 1 character"
  else if doc.length < 1 then .error "doc: String should have at least 1 character"
  else if questions.length < 1 then .error "questions: List should have at least 1 item"
  else if answers.length < 1 then .error "answers: List should have at least 1 item"
  else if questions.length ≠ answers.length then
    .error "Questions and answers must have the same length."
  else .ok ⟨id, doc, questions, answers, none, []⟩

/-- ASCII whitespace stripped by Python `str.strip()` (tab, newline,
vertical tab, form feed, carriage return, space; the further Unicode
whitespace Python also strips is outside the model). -/
def isStripWs (c : Char) : Bool :=
  c = ' ' ∨ c = Char.ofNat 9 ∨ c = Char.ofNat 10 ∨ c = Char.ofNat 11 ∨
    c = Char.ofNat 12 ∨ c = Char.ofNat 13

/-- Python `str.strip()`: drop whitespace from both ends. -/
def pyStrip (s : String) : String :=
  String.mk (((s.toList.dropWhile isStripWs).reverse.dropWhile isStripWs).reverse)

/-- Per-conversation accuracy, from
`ConversationsEvaluator._evaluate_conversation` in src/app/evaluator.py.
The Python list comprehensions filter out `None` entries; by the pydantic
types both lists contain only strings, so the filter is the identity and
only the `.strip()` (here `pyStrip`) remains. -/
def _evaluate_conversation (conv : ConvQA) : ℚ :=
  let preds := conv.formatted_llm_response.map pyStrip
  let tru := conv.answers.map pyStrip
  let total := tru.length
  if preds = [] ∨ total = 0 then 0
  else ((List.countP (fun x => x.1 == x.2) (List.zip tru preds) : ℚ) / (total : ℚ)) * 100

/-- Per-conversation accuracy written the way §4.3 / §8 of the spec word
it: count of positions where predicted and expected agree after trimming,
pairing positionally and truncating to the shorter list, divided by the
number of expected answers, times 100; 0 if either list is empty. -/
def accuracySpec (conv : ConvQA) : ℚ :=
  let preds := conv.formatted_llm_response.map pyStrip
  let tru := conv.answers.map pyStrip
  if preds = [] ∨ tru = [] then 0
  else 100 * (List.count true (List.zipWith (fun t p => t == p) tru preds) : ℚ) / (tru.length : ℚ)

/-- `xs` is an initial segment of `ys`. -/
def ListLeads (xs ys : List String) : Prop := ∃ r, xs ++ r = ys

/-- Average accuracy over a run, from
`ConversationsEvaluator.evaluate_all_conversations` in src/app/evaluator.py.
The evaluator state is threaded explicitly: `all_convs` is the list held by
the object and `report` the contents written to the eval file (modelled as
a record instead of formatted text). -/
structure EvalReport where
  model_name : String
  prompting_strategy : String
  average_accuracy : ℚ
  sample_size : Nat
deriving Repr, DecidableEq

structure EvalState where
  all_convs : List ConvQA
  report : Option EvalReport
deriving Repr, DecidableEq

def evaluate_all_conversations (st : EvalState)
    (model_name prompting_strategy : String) (sample_size : Nat) :
    EvalState × ℚ :=
  let accs := st.all_convs.map _evaluate_conversation
  let avg_accuracy := if accs = [] then 0 else accs.sum / (accs.length : ℚ)
  (⟨st.all_convs, some ⟨model_name, prompting_strategy, avg_accuracy, sample_size⟩⟩,
   avg_accuracy)

/-! ## LLM client with retry (src/app/model_loader.py) -/

/-- Retry configuration, from `RetryConfig` in src/app/model_loader.py
(pydantic validates `0 ≤ max_retries ≤ 10` and `0.1 ≤ base_delay ≤ 60`;
those bounds are not needed by the retry behaviour itself). -/
structure RetryConfig where
  max_retries : Nat
  base_delay : ℚ
deriving Repr, DecidableEq

/-- Transient (retryable) upstream error classes caught by
`get_response`: `RateLimitError`, `APITimeoutError`, `APIError`. -/
inductive ApiError where
  | rateLimit
  | timeout
  | apiError
deriving Repr, DecidableEq

/-- Outcome of one call to `self.client.chat.completions.create`:
a payload (`None` modelling an empty response), a raised transient
error, or a raised non-retryable exception. -/
inductive CallResult where
  | success (content : Option String)
  | transient (e : ApiError)
  | failure (msg : String)
deriving Repr, DecidableEq

/-- How a run of `get_response` ends. -/
inductive RunOutcome where
  | ok (content : String)
  | valueError
  | apiErr (e : ApiError)
  | err (msg : String)
  | runtimeError
deriving Repr, DecidableEq

/-- Observable trace of a run of `get_response`: final outcome, number of
upstream calls performed, and the backoff delays slept, in order. -/
structure RunTrace where
  outcome : RunOutcome
  calls : Nat
  sleeps : List ℚ
deriving Repr, DecidableEq

/-- Backoff delay, from `OpenAiLlmResponse._calculate_delay` in
src/app/model_loader.py: `base_delay * (2 ** attempt)`. -/
def _calculate_delay (cfg : RetryConfig) (attempt : Nat) : ℚ :=
  cfg.base_delay * 2 ^ attempt

/-- The retry loop of `OpenAiLlmResponse.get_response`
(src/app/model_loader.py), one constructor case per control path:
`for attempt in range(max_retries + 1)` with `fuel` the remaining loop
iterations and `attempt` the current index.  A successful call returns
its payload unless the payload is empty, which raises `ValueError`; a
`ValueError` is not in `retryable_errors`, so like every other
non-retryable exception it propagates immediately.  A transient error on
the final attempt propagates; otherwise the loop sleeps
`_calculate_delay attempt` and retries.  Exiting the loop without a
return corresponds to the trailing `raise RuntimeError`. -/
def getResponseLoop (cfg : RetryConfig) (client : Nat → CallResult) :
    Nat → Nat → RunTrace
  | 0, _ => ⟨.runtimeError, 0, []⟩
  | fuel + 1, attempt =>
    match client attempt with
    | .success (some c) => ⟨.ok c, 1, []⟩
    | .success none => ⟨.valueError, 1, []⟩
    | .failure m => ⟨.err m, 1, []⟩
    | .transient e =>
      if attempt = cfg.max_retries then ⟨.apiErr e, 1, []⟩
      else
        let r := getResponseLoop cfg client fuel (attempt + 1)
        ⟨r.outcome, r.calls + 1, _calculate_delay cfg attempt :: r.sleeps⟩

/-- `OpenAiLlmResponse.get_response`: run the loop over
`range(max_retries + 1)` starting at attempt 0.  `client k` is the result
of the upstream API on its `k`-th invocation (0-indexed). -/
def get_response (cfg : RetryConfig) (client : Nat → CallResult) : RunTrace :=
  getResponseLoop cfg client (cfg.max_retries + 1) 0

/-! ## Prompting (src/app/prompting.py) -/

/-- Python `sep.join(parts)`, used by `ConvQA.formatted_questions`. -/
def strJoin (sep : String) : List String → String
  | [] => ""
  | [x] => x
  | x :: xs => x ++ sep ++ strJoin sep xs

/-- `ConvQA.formatted_questions` (src/app/data_parser.py):
questions joined with the delimiter used by every prompt template. -/
def formatted_questions (conv : ConvQA) : String :=
  strJoin " {next_question} " conv.questions

/-- `BasicPromptStrategy.generate_prompt` (src/app/prompting.py). -/
def basic_generate_prompt (doc questions : String) : String :=
  "You are a financial question answering assistant.\n"
    ++ "You will be given a document containing financial context, including text and tables.\n"
    ++ "You will also receive a series of questions separated by the token {next_question}.\n"
    ++ "Answer all questions in order.\n"
    ++ "Return only the **final numeric answers** (no full sentences), as a Python list of strings.\n"
    ++ "For example: [\x2760.94\x27, \x2725.14\x27, \x2735.80\x27, \x2725.14\x27, \x27142.4%\x27]\n"
    ++ "Do not include any explanation or units like \x22dollars\x22 or \x22%\x22.\n"
    ++ "Just return the values in order, as shown.\n\n"
    ++ "Document:\n" ++ doc ++ "\n\n"
    ++ "Questions:\n" ++ questions ++ "\n\n"
    ++ "Answers (as a Python list of strings):"

/-- `ChainOfThoughtPromptStrategy.generate_prompt` (src/app/prompting.py). -/
def chain_of_thought_generate_prompt (doc questions : String) : String :=
  "You are a financial assistant trained to answer multi-step questions based on financial reports.\n"
    ++ "You will be given a document containing financial context, including textual discussion and tabular data.\n"
    ++ "You will also receive a series of questions separated by the token {next_question}.\n"
    ++ "Please think through each question step-by-step before arriving at a final numeric answer.\n"
    ++ "Then, return only the **final numeric answers**, including symbols like \x27£\x27 or \x27%\x27 if they are appropriate.\n"
    ++ "Do not return explanations or full sentences — just the final values.\n"
    ++ "Return the answers as a Python list of strings.\n\n"
    ++ "Example format:\n"
    ++ "Step-by-step reasoning: ...\n"
    ++ "Final answers: [\x27£12.50\x27, \x2725.14\x27, \x2718%\x27, \x27100\x27]\n\n"
    ++ "Document:\n" ++ doc ++ "\n\n"
    ++ "Questions:\n" ++ questions ++ "\n\n"
    ++ "Your reasoning and final answers:"

/-- `FewShotPromptStrategy.generate_prompt` (src/app/prompting.py). -/
def few_shot_generate_prompt (doc questions : String) : String :=
  "You are a financial assistant. Your task is to answer a series of related questions given a document.\n"
    ++ "Your answers must strictly follow this format:\n"
    ++ "**Return ONLY the final numeric answers** as a Python list of strings — e.g., [\x2712.34\x27, \x2756%\x27, \x2778\x27].\n"
    ++ "Do NOT include units (unless explicitly requested), explanations, or any text — just the raw values.\n"
    ++ "The questions will be separated by the token {next_question}.\n\n"
    ++ "Here are three example Q&A pairs:\n\n"
    ++ "Questions:\n"
    ++ "what was the weighted average exercise price per share in 2007? {next_question} "
    ++ "and what was it in 2005? {next_question} "
    ++ "what was, then, the change over the years? {next_question} "
    ++ "what was the weighted average exercise price per share in 2005? {next_question} "
    ++ "and how much does that change represent in relation to this 2005 weighted average exercise price?\n"
    ++ "Answers:\n"
    ++ "[\x2760.94\x27, \x2725.14\x27, \x2735.80\x27, \x2725.14\x27, \x27142.4%\x27]\n\n"
    ++ "Questions:\n"
    ++ "what was the change in the unamortized debt issuance costs associated with the senior notes between 2016 and 2017? {next_question} "
    ++ "so what was the percentage change during this time? {next_question} "
    ++ "what was the change associated with credit facilities during that time? {next_question} "
    ++ "so what was the percentage change?\n"
    ++ "Answers:\n"
    ++ "[\x27-4\x27, \x27-21.1%\x27, \x273\x27, \x2737.5%\x27]\n\n"
    ++ "Questions:\n"
    ++ "what is the ratio of discretionary company contributions to total expensed amounts for savings plans in 2009? {next_question} "
    ++ "what is that times 100?\n"
    ++ "Answers:\n"
    ++ "[\x270.1083\x27, \x2710.83\x27]\n\n"
    ++ "Now answer the following using the same format.\n\n"
    ++ "Document:\n" ++ doc ++ "\n\n"
    ++ "Questions:\n" ++ questions ++ "\n\n"
    ++ "Answers:"

/-- The strategy registry `PromptGenerator._STRATEGY_DICT`
(src/app/prompting.py): string key to prompt function. -/
def STRATEGY_DICT : List (String × (String → String → String)) :=
  [("basic", basic_generate_prompt),
   ("chain_of_thought", chain_of_thought_generate_prompt),
   ("few_shot", few_shot_generate_prompt)]

/-- `PromptGenerator.__init__`: look the strategy up in the registry;
an unknown key raises `ValueError`. -/
def mkPromptGenerator (strategy : String) :
    Except String (String → String → String) :=
  match STRATEGY_DICT.lookup strategy with
  | some f => .ok f
  | none => .error ("Strategy \x27" ++ strategy ++ "\x27 is not recognized.")

/-- `PromptGenerator.generate_prompt`: apply the selected strategy to the
conversation document and its formatted questions. -/
def PromptGenerator.generate_prompt (strat : String → String → String)
    (conversation : ConvQA) : String :=
  strat conversation.doc (formatted_questions conversation)

/-- Substring relation used to state the prompt-content claims. -/
def StrContains (hay needle : String) : Prop :=
  ∃ a b, hay = a ++ needle ++ b

/-! ## Saving conversations to JSON (src/app/generate_responses.py) -/

/-- JSON values, as produced by `json.dump` / consumed by `json.load`
(only the constructors the output format uses). -/
inductive Json where
  | str (s : String)
  | arr (xs : List Json)
  | obj (fields : List (String × Json))

/-- The per-conversation dictionary built inside
`GetAllLlmResponses._save_conversations_to_json`. -/
def convToJson (conv : ConvQA) : Json :=
  .obj [("id", .str conv.id),
        ("doc", .str conv.doc),
        ("questions", .arr (conv.questions.map .str)),
        ("answers", .arr (conv.answers.map .str)),
        ("formatted_llm_response", .arr (conv.formatted_llm_response.map .str))]

/-- `GetAllLlmResponses._save_conversations_to_json`
(src/app/generate_responses.py): raises `ValueError` on an empty
conversation list, otherwise writes the JSON array of records. -/
def _save_conversations_to_json (all_convs : List ConvQA) : Except String Json :=
  if all_convs = [] then .error "The list of conversations is empty."
  else .ok (.arr (all_convs.map convToJson))

def jsonGetStr : Json → Option String
  | .str s => some s
  | _ => none

def jsonGetStrs : List Json → Option (List String)
  | [] => some []
  | j :: js =>
    match jsonGetStr j, jsonGetStrs js with
    | some s, some ss => some (s :: ss)
    | _, _ => none

def jsonGetStrList : Json → Option (List String)
  | .arr xs => jsonGetStrs xs
  | _ => none

/-- Modelled from the spec: the repository has no loader for the output
file (§6: a JSON array of records with keys id, doc, questions,
answers, formatted_llm_response); reloading a saved record reads those
five fields back from the record object. -/
def loadRecord (j : Json) : Option (String × String × List String × List String × List String) :=
  match j with
  | .obj fields => do
    let id ← fields.lookup "id" >>= jsonGetStr
    let doc ← fields.lookup "doc" >>= jsonGetStr
    let questions ← fields.lookup "questions" >>= jsonGetStrList
    let answers ← fields.lookup "answers" >>= jsonGetStrList
    let fmt ← fields.lookup "formatted_llm_response" >>= jsonGetStrList
    pure (id, doc, questions, answers, fmt)
  | _ => none

def loadRecords : List Json → Option (List (String × String × List String × List String × List String))
  | [] => some []
  | x :: xs =>
    match loadRecord x, loadRecords xs with
    | some r, some rs => some (r :: rs)
    | _, _ => none

/-- Modelled from the spec: reload the whole saved file, a JSON array of
record objects. -/
def loadConversations (j : Json) : Option (List (String × String × List String × List String × List String)) :=
  match j with
  | .arr xs => loadRecords xs
  | _ => none

/-! ## Response extractor (src/app/generate_responses.py)

`_extract_list_from_llm_response` runs
`re.findall(r"\[[^\[\]]+\]", llm_response)`, takes the last match and
feeds it to `ast.literal_eval`, returning the value if it is a list of
strings and `[]` otherwise (also on `SyntaxError`/`ValueError`). -/

def openBracket : Char := Char.ofNat 91
def closeBracket : Char := Char.ofNat 93
def quoteChar : Char := Char.ofNat 39
def dquoteChar : Char := Char.ofNat 34
def backslashChar : Char := Char.ofNat 92

/-- One pass of the regex `\[[^\[\]]+\]` over the input, equivalent to
`re.findall`: the second argument is `none` outside any candidate match
and `some run` (reversed accumulated interior) after an unclosed `[`.
A fresh `[` restarts the candidate (the regex engine would fail at the
earlier `[` and retry from the next position); a `]` closes the
candidate only when the interior is non-empty, exactly the `+` in the
pattern. -/
def scanGroups : List Char → Option (List Char) → List (List Char)
  | [], _ => []
  | c :: rest, none =>
    if c = openBracket then scanGroups rest (some [])
    else scanGroups rest none
  | c :: rest, some run =>
    if c = openBracket then scanGroups rest (some [])
    else if c = closeBracket then
      if run = [] then scanGroups rest none
      else (openBracket :: (run.reverse ++ [closeBracket])) :: scanGroups rest none
    else scanGroups rest (some (c :: run))

/-- `re.findall(r"\[[^\[\]]+\]", s)` as a list of character lists. -/
def findBracketGroups (l : List Char) : List (List Char) :=
  scanGroups l none

/-- An element of a parsed Python list literal: a string constant, or
any successfully parsed non-string element (its value is irrelevant: the
extractor discards the whole list unless every element is a string). -/
inductive PyItem where
  | str (s : String)
  | other
deriving Repr, DecidableEq

def PyItem.isStr : PyItem → Bool
  | .str _ => true
  | .other => false

def pyStrVals (items : List PyItem) : List String :=
  items.filterMap (fun i => match i with | .str s => some s | .other => none)

def isPyWs (c : Char) : Bool :=
  c = ' ' ∨ c = Char.ofNat 9 ∨ c = Char.ofNat 10 ∨ c = Char.ofNat 13 ∨ c = Char.ofNat 12

/-- Python short escape sequences inside a string literal, as the
(reversed) characters they denote: `\\`, `\'`, `\"`, `\n`, `\t`, `\r`,
`\0`, `\b`, `\f`, `\v`, an escaped real newline (line continuation,
denoting nothing), and — as CPython does for unrecognized escapes — the
backslash kept together with the following character.  Multi-character
escapes (`\xhh`, `\uxxxx`, octal beyond `\0`, `\N`) are outside the
model. -/
def escChars (c : Char) : List Char :=
  if c = backslashChar then [backslashChar]
  else if c = quoteChar then [quoteChar]
  else if c = dquoteChar then [dquoteChar]
  else if c = 'n' then [Char.ofNat 10]
  else if c = 't' then [Char.ofNat 9]
  else if c = 'r' then [Char.ofNat 13]
  else if c = '0' then [Char.ofNat 0]
  else if c = 'b' then [Char.ofNat 8]
  else if c = 'f' then [Char.ofNat 12]
  else if c = 'v' then [Char.ofNat 11]
  else if c = Char.ofNat 10 then []
  else [c, backslashChar]

/-- Parser state for a flat Python list literal (the matched group has
no interior brackets, so elements are scalar literals; commas inside a
parenthesized or braced element make the element parse as a shorter
`other`, which changes nothing observable since any non-string element
already forces the extractor to return `[]`). -/
inductive PState where
  | expectItem (acc : List PyItem)
  | inString (q : Char) (cur : List Char) (acc : List PyItem)
  | inEsc (q : Char) (cur : List Char) (acc : List PyItem)
  | afterStr (cur : List Char) (acc : List PyItem)
  | inOther (acc : List PyItem)
  | closed (acc : List PyItem)

/-- Character-level model of `ast.literal_eval` on the interior of a
list display: items separated by commas, a trailing comma allowed,
string literals in either quote with short escapes and implicit
adjacent-literal concatenation, a raw newline inside a string rejected,
and nothing allowed after the closing `]`. -/
def runParse : List Char → PState → Option (List PyItem)
  | [], st =>
    match st with
    | .closed acc => some acc.reverse
    | _ => none
  | c :: rest, .expectItem acc =>
    if isPyWs c then runParse rest (.expectItem acc)
    else if c = closeBracket then runParse rest (.closed acc)
    else if c = quoteChar ∨ c = dquoteChar then runParse rest (.inString c [] acc)
    else if c = ',' then none
    else runParse rest (.inOther acc)
  | c :: rest, .inString q cur acc =>
    if c = q then runParse rest (.afterStr cur acc)
    else if c = backslashChar then runParse rest (.inEsc q cur acc)
    else if c = Char.ofNat 10 ∨ c = Char.ofNat 13 then none
    else runParse rest (.inString q (c :: cur) acc)
  | c :: rest, .inEsc q cur acc =>
    runParse rest (.inString q (escChars c ++ cur) acc)
  | c :: rest, .afterStr cur acc =>
    if isPyWs c then runParse rest (.afterStr cur acc)
    else if c = quoteChar ∨ c = dquoteChar then runParse rest (.inString c cur acc)
    else if c = ',' then runParse rest (.expectItem (.str (String.mk cur.reverse) :: acc))
    else if c = closeBracket then runParse rest (.closed (.str (String.mk cur.reverse) :: acc))
    else none
  | c :: rest, .inOther acc =>
    if c = ',' then runParse rest (.expectItem (.other :: acc))
    else if c = closeBracket then runParse rest (.closed (.other :: acc))
    else if c = quoteChar ∨ c = dquoteChar then none
    else runParse rest (.inOther acc)
  | _ :: _, .closed _ => none

/-- `ast.literal_eval` applied to a candidate list literal: `none` is a
raised `SyntaxError`/`ValueError`, `some items` a successfully parsed
Python list. -/
def pyLiteralEvalList (s : String) : Option (List PyItem) :=
  match s.toList with
  | c :: rest => if c = openBracket then runParse rest (.expectItem []) else none
  | [] => none

/-- `GetAllLlmResponses._extract_list_from_llm_response`
(src/app/generate_responses.py). -/
def _extract_list_from_llm_response (llm_response : String) : List String :=
  if llm_response = "" then []
  else
    match (findBracketGroups llm_response.toList).getLast? with
    | none => []
    | some last =>
      match pyLiteralEvalList (String.mk last) with
      | some result => if result.all PyItem.isStr then pyStrVals result else []
      | none => []

/-! ## Helper lemmas -/

/-- `_evaluate_conversation` with its `let` bindings expanded. -/
lemma eval_conv_eq (conv : ConvQA) :
    _evaluate_conversation conv =
      if conv.formatted_llm_response.map pyStrip = [] ∨
          (conv.answers.map pyStrip).length = 0 then 0
      else ((List.countP (fun x => x.1 == x.2)
          (List.zip (conv.answers.map pyStrip)
            (conv.formatted_llm_response.map pyStrip)) : ℚ) /
        ((conv.answers.map pyStrip).length : ℚ)) * 100 := rfl

/-- The positional match count over `zip` saturates at the length of the
first list exactly when the first list is an initial segment of the
second. -/
lemma countP_zip_eq_length_iff (T P : List String) :
    List.countP (fun x => x.1 == x.2) (List.zip T P) = T.length ↔ ∃ r, T ++ r = P := by
  induction T generalizing P with
  | nil => simp
  | cons t ts ih =>
    cases P with
    | nil => simp
    | cons p ps =>
      rw [List.zip_cons_cons, List.countP_cons]
      constructor
      · intro h
        by_cases htp : (t == p) = true
        · have ht : t = p := by simpa using htp
          have hc : List.countP (fun x => x.1 == x.2) (List.zip ts ps) = ts.length := by
            simp [htp] at h
            omega
          obtain ⟨r, hr⟩ := (ih ps).mp hc
          exact ⟨r, by simp [ht, hr]⟩
        · have hle : List.countP (fun x => x.1 == x.2) (List.zip ts ps) ≤ ts.length := by
            calc List.countP (fun x => x.1 == x.2) (List.zip ts ps)
                ≤ (List.zip ts ps).length := List.countP_le_length _
              _ ≤ ts.length := by rw [List.length_zip]; exact min_le_left _ _
          simp [htp] at h
          omega
      · rintro ⟨r, hr⟩
        rw [List.cons_append] at hr
        have ht : t = p := ((List.cons.injEq _ _ _ _).mp hr).1
        have hts : ts ++ r = ps := ((List.cons.injEq _ _ _ _).mp hr).2
        have := (ih ps).mpr ⟨r, hts⟩
        simp [ht, this]

/-- Match count over `zip` agrees with counting `true` in the boolean
`zipWith` comparison. -/
lemma countP_zip_eq_count_zipWith (T P : List String) :
    List.countP (fun x => x.1 == x.2) (List.zip T P) =
      List.count true (List.zipWith (fun t p => t == p) T P) := by
  induction T generalizing P with
  | nil => simp
  | cons t ts ih =>
    cases P with
    | nil => simp
    | cons p ps =>
      rw [List.zip_cons_cons, List.zipWith_cons_cons, List.countP_cons, List.count_cons, ih ps]
      by_cases htp : (t == p) = true <;> simp [htp, List.count]

/-! ## Claim theorems -/

/-- C1 counterexample: with expected answers `["10"]` and predictions
`["10", "20"]` the per-conversation accuracy is 100 even though the
prediction and expected-answer lists do not have equal length, so
accuracy 100 does not imply equal lengths. -/
theorem accuracy_hundred_with_unequal_lengths :
    _evaluate_conversation ⟨"i", "d", ["q"], ["10"], none, ["10", "20"]⟩ = 100 ∧
    (ConvQA.mk "i" "d" ["q"] ["10"] none ["10", "20"]).formatted_llm_response.length ≠
      (ConvQA.mk "i" "d" ["q"] ["10"] none ["10", "20"]).answers.length := by
  refine ⟨?_, by decide⟩
  rw [eval_conv_eq, if_neg (by decide)]
  have h1 : List.countP (fun (x : String × String) => x.1 == x.2)
      (List.zip ((["10"] : List String).map pyStrip)
        ((["10", "20"] : List String).map pyStrip)) = 1 := by decide
  have h2 : (((["10"] : List String).map pyStrip).length) = 1 := by decide
  rw [h1, h2]
  norm_num

/-- C1 (amended): for every conversation the accuracy lies in `[0, 100]`,
and it equals 100 if and only if the expected-answer list is non-empty
and the trimmed expected answers are an initial segment of the trimmed
predictions — every expected position matches, with the prediction list
at least as long; equal length is not required, extra predictions beyond
the expected length being ignored. -/
theorem accuracy_bounds_and_hundred_iff (conv : ConvQA) :
    0 ≤ _evaluate_conversation conv ∧ _evaluate_conversation conv ≤ 100 ∧
    (_evaluate_conversation conv = 100 ↔
      conv.answers ≠ [] ∧
      ListLeads (conv.answers.map pyStrip) (conv.formatted_llm_response.map pyStrip)) := by
  rw [eval_conv_eq]
  set P := conv.formatted_llm_response.map pyStrip with hP
  set T := conv.answers.map pyStrip with hT
  by_cases hcond : P = [] ∨ T.length = 0
  · rw [if_pos hcond]
    refine ⟨le_refl 0, by norm_num, ?_⟩
    constructor
    · intro h
      exact absurd h (by norm_num)
    · rintro ⟨hne, r, hr⟩
      have hTne : T ≠ [] := by
        simp only [hT, ne_eq, List.map_eq_nil_iff]
        exact hne
      exfalso
      cases hcond with
      | inl hPnil =>
        rw [hPnil] at hr
        exact hTne (List.append_eq_nil.mp hr).1
      | inr hTlen =>
        exact hTne (List.length_eq_zero.mp hTlen)
  · rw [if_neg hcond]
    push_neg at hcond
    have hn : 0 < T.length := Nat.pos_of_ne_zero hcond.2
    have hnQ : (0 : ℚ) < (T.length : ℚ) := by exact_mod_cast hn
    set c := List.countP (fun x => x.1 == x.2) (List.zip T P) with hc
    have hcle : c ≤ T.length := by
      calc c ≤ (List.zip T P).length := List.countP_le_length _
        _ ≤ T.length := by rw [List.length_zip]; exact min_le_left _ _
    have hcleQ : (c : ℚ) ≤ (T.length : ℚ) := by exact_mod_cast hcle
    refine ⟨?_, ?_, ?_⟩
    · positivity
    · have hdiv : (c : ℚ) / (T.length : ℚ) ≤ 1 := (div_le_one hnQ).mpr hcleQ
      calc (c : ℚ) / (T.length : ℚ) * 100 ≤ 1 * 100 := by
            exact mul_le_mul_of_nonneg_right hdiv (by norm_num)
        _ = 100 := by norm_num
    · constructor
      · intro h
        have hdiv : (c : ℚ) / (T.length : ℚ) = 1 := by
          field_simp at h
          rw [div_eq_one_iff_eq (ne_of_gt hnQ)]
          linarith
        have hceq : (c : ℚ) = (T.length : ℚ) := by
          rw [div_eq_one_iff_eq (ne_of_gt hnQ)] at hdiv
          exact hdiv
        have hcn : c = T.length := by exact_mod_cast hceq
        have hAne : conv.answers ≠ [] := by
          intro hnil
          rw [hT, hnil] at hn
          simp at hn
        exact ⟨hAne, (countP_zip_eq_length_iff T P).mp hcn⟩
      · rintro ⟨hne, r, hr⟩
        have hcn : c = T.length := (countP_zip_eq_length_iff T P).mpr ⟨r, hr⟩
        rw [hcn, div_self (ne_of_gt hnQ), one_mul]

/-- C5: the per-conversation accuracy computed by the evaluator equals
100 times the count of positionally matching trimmed pairs (truncating to
the shorter list) divided by the number of expected answers, and is 0
when either list is empty — the spec formula `accuracySpec`. -/
theorem accuracy_matches_spec_formula (conv : ConvQA) :
    _evaluate_conversation conv = accuracySpec conv := by
  rw [eval_conv_eq]
  unfold accuracySpec
  simp only [List.length_eq_zero]
  by_cases hcond : conv.formatted_llm_response.map pyStrip = [] ∨
      conv.answers.map pyStrip = []
  · rw [if_pos hcond, if_pos hcond]
  · rw [if_neg hcond, if_neg hcond, countP_zip_eq_count_zipWith]
    ring

/-- When every upstream call raises a transient error, the retry loop
started at `attempt` with matching remaining fuel performs exactly `fuel`
calls, sleeps `_calculate_delay` for each non-final attempt, and ends
with the transient error of the final attempt. -/
lemma getResponseLoop_all_transient (cfg : RetryConfig) (errs : Nat → ApiError)
    (client : Nat → CallResult) (hcl : ∀ k, client k = .transient (errs k)) :
    ∀ fuel attempt, attempt + fuel = cfg.max_retries + 1 → attempt ≤ cfg.max_retries →
      getResponseLoop cfg client fuel attempt =
        ⟨.apiErr (errs cfg.max_retries), fuel,
         (List.range' attempt (fuel - 1)).map (fun i => _calculate_delay cfg i)⟩ := by
  intro fuel
  induction fuel with
  | zero => intro attempt h1 h2; omega
  | succ f ih =>
    intro attempt h1 h2
    rw [getResponseLoop, hcl attempt]
    dsimp only
    by_cases hlast : attempt = cfg.max_retries
    · have hf : f = 0 := by omega
      subst hf
      rw [if_pos hlast, hlast]
      rfl
    · rw [if_neg hlast]
      have hf1 : 1 ≤ f := by omega
      rw [ih (attempt + 1) (by omega) (by omega)]
      have hr : List.range' attempt (f + 1 - 1) =
          attempt :: List.range' (attempt + 1) (f - 1) := by
        have : f + 1 - 1 = (f - 1) + 1 := by omega
        rw [this, List.range'_succ]
      rw [hr]
      rfl

/-- C2: with `max_retries = N` and a client that raises a transient
error on every call, `get_response` performs exactly `N + 1` calls, then
propagates the error of the final attempt; the sleeps are
`base_delay * 2^0, …, base_delay * 2^(N-1)` in order, i.e. the delay
slept before (0-indexed) call `k` is `base_delay * 2^(k-1)`, matching
the spec convention `sleep base_delay * 2^attempt` after attempt `k-1`. -/
theorem retry_all_transient_trace (cfg : RetryConfig) (errs : Nat → ApiError)
    (client : Nat → CallResult) (hcl : ∀ k, client k = .transient (errs k)) :
    (get_response cfg client).calls = cfg.max_retries + 1 ∧
    (get_response cfg client).outcome = .apiErr (errs cfg.max_retries) ∧
    (get_response cfg client).sleeps =
      (List.range cfg.max_retries).map (fun i => cfg.base_delay * 2 ^ i) ∧
    ∀ k, 1 ≤ k → k ≤ cfg.max_retries →
      (get_response cfg client).sleeps[k - 1]? =
        some (cfg.base_delay * 2 ^ (k - 1)) := by
  have h := getResponseLoop_all_transient cfg errs client hcl (cfg.max_retries + 1) 0
    (by omega) (by omega)
  unfold get_response
  rw [h]
  have hsleeps : (List.range' 0 (cfg.max_retries + 1 - 1)).map
      (fun i => _calculate_delay cfg i) =
      (List.range cfg.max_retries).map (fun i => cfg.base_delay * 2 ^ i) := by
    rw [show cfg.max_retries + 1 - 1 = cfg.max_retries from rfl, ← List.range_eq_range']
    rfl
  refine ⟨rfl, rfl, hsleeps, ?_⟩
  intro k h1 h2
  rw [hsleeps, List.getElem?_map, List.getElem?_range (by omega)]
  rfl

/-- C2 witness: `max_retries = 2`, `base_delay = 1`, a client that
always raises the rate-limit error: 3 calls, sleeps `[1, 2]`. -/
theorem retry_all_transient_trace_witness :
    (get_response ⟨2, 1⟩ (fun _ => CallResult.transient .rateLimit)).calls = 2 + 1 ∧
    (get_response ⟨2, 1⟩ (fun _ => CallResult.transient .rateLimit)).outcome =
      .apiErr ((fun _ => ApiError.rateLimit) (2 : Nat)) ∧
    (get_response ⟨2, 1⟩ (fun _ => CallResult.transient .rateLimit)).sleeps =
      (List.range 2).map (fun i => (1 : ℚ) * 2 ^ i) ∧
    ∀ k, 1 ≤ k → k ≤ 2 →
      (get_response ⟨2, 1⟩ (fun _ => CallResult.transient .rateLimit)).sleeps[k - 1]? =
        some ((1 : ℚ) * 2 ^ (k - 1)) :=
  retry_all_transient_trace ⟨2, 1⟩ (fun _ => .rateLimit)
    (fun _ => .transient .rateLimit) (fun _ => rfl)

/-- C3: if the first upstream call succeeds but with an empty payload,
`get_response` raises a value error after exactly one call and no sleep,
for every retry configuration: the failure is never retried. -/
theorem empty_payload_value_error_no_retry (cfg : RetryConfig)
    (client : Nat → CallResult) (h : client 0 = .success none) :
    get_response cfg client = ⟨.valueError, 1, []⟩ := by
  unfold get_response
  rw [getResponseLoop, h]

/-- C3 witness: `max_retries = 3` with an always-empty payload: one call,
a value error, no sleeps. -/
theorem empty_payload_value_error_no_retry_witness :
    get_response ⟨3, 2⟩ (fun _ => CallResult.success none) =
      ⟨.valueError, 1, []⟩ :=
  empty_payload_value_error_no_retry ⟨3, 2⟩ (fun _ => .success none) rfl

/-- C7: a successfully validated `ConvQA` has questions and answers of
equal non-zero length, and construction with mismatched lengths fails. -/
theorem convqa_lengths_invariant :
    (∀ id doc qs as c, mkConvQA id doc qs as = .ok c →
      c.questions.length = c.answers.length ∧ c.questions.length ≠ 0) ∧
    (∀ id doc qs as, qs.length ≠ as.length →
      ∃ e, mkConvQA id doc qs as = .error e) := by
  constructor
  · intro id doc qs as c h
    unfold mkConvQA at h
    split_ifs at h
    rw [Except.ok.injEq] at h
    subst h
    have hgoal : qs.length = as.length ∧ qs.length ≠ 0 := ⟨by omega, by omega⟩
    exact hgoal
  · intro id doc qs as hne
    unfold mkConvQA
    split_ifs
    any_goals exact ⟨_, rfl⟩

/-- C7 witness: `["q"]`/`["a"]` validates with equal non-zero lengths;
two questions with one answer is rejected. -/
theorem convqa_lengths_invariant_witness :
    ((ConvQA.mk "i" "d" ["q"] ["a"] none []).questions.length =
        (ConvQA.mk "i" "d" ["q"] ["a"] none []).answers.length ∧
      (ConvQA.mk "i" "d" ["q"] ["a"] none []).questions.length ≠ 0) ∧
    ∃ e, mkConvQA "i" "d" ["q1", "q2"] ["a1"] = .error e :=
  ⟨convqa_lengths_invariant.1 "i" "d" ["q"] ["a"] ⟨"i", "d", ["q"], ["a"], none, []⟩ rfl,
   convqa_lengths_invariant.2 "i" "d" ["q1", "q2"] ["a1"] (by decide)⟩

/-- A substring of the right part is a substring of the whole. -/
lemma strContains_appl (x p n : String) (h : StrContains p n) :
    StrContains (x ++ p) n := by
  obtain ⟨a, b, hab⟩ := h
  exact ⟨x ++ a, b, by rw [hab]; simp [String.append_assoc]⟩

/-- A substring of the left part is a substring of the whole. -/
lemma strContains_appr (p y n : String) (h : StrContains p n) :
    StrContains (p ++ y) n := by
  obtain ⟨a, b, hab⟩ := h
  exact ⟨a, b ++ y, by rw [hab]; simp [String.append_assoc]⟩

lemma strContains_refl (n : String) : StrContains n n :=
  ⟨"", "", by rw [String.empty_append, String.append_empty]⟩

/-- Every joined part is a substring of the join. -/
lemma strJoin_contains (sep : String) (qs : List String) (q : String)
    (hq : q ∈ qs) : StrContains (strJoin sep qs) q := by
  induction qs with
  | nil => cases hq
  | cons x xs ih =>
    rcases List.mem_cons.mp hq with hx | hmem
    · subst hx
      cases xs with
      | nil => exact strContains_refl q
      | cons y ys =>
        show StrContains (q ++ sep ++ strJoin sep (y :: ys)) q
        exact strContains_appr _ _ _ (strContains_appr _ _ _ (strContains_refl q))
    · cases xs with
      | nil => cases hmem
      | cons y ys =>
        show StrContains (x ++ sep ++ strJoin sep (y :: ys)) q
        rw [String.append_assoc]
        exact strContains_appl _ _ _ (strContains_appl _ _ _ (ih hmem))

/-- C8: the prompt generated through the registry for strategy
`"chain_of_thought"` contains the substring `"Step-by-step reasoning"`,
the conversation document, and every question of the conversation. -/
theorem chain_of_thought_prompt_contains (conv : ConvQA)
    (f : String → String → String)
    (hf : mkPromptGenerator "chain_of_thought" = .ok f) :
    StrContains (PromptGenerator.generate_prompt f conv) "Step-by-step reasoning" ∧
    StrContains (PromptGenerator.generate_prompt f conv) conv.doc ∧
    ∀ q ∈ conv.questions, StrContains (PromptGenerator.generate_prompt f conv) q := by
  have hfeq : f = chain_of_thought_generate_prompt := by
    have h0 : mkPromptGenerator "chain_of_thought" = .ok chain_of_thought_generate_prompt := rfl
    rw [h0, Except.ok.injEq] at hf
    exact hf.symm
  subst hfeq
  unfold PromptGenerator.generate_prompt chain_of_thought_generate_prompt
  refine ⟨?_, ?_, ?_⟩
  · apply strContains_appr
    apply strContains_appr
    apply strContains_appr
    apply strContains_appr
    apply strContains_appr
    apply strContains_appr
    apply strContains_appr
    apply strContains_appr
    apply strContains_appl
    exact ⟨"", ": ...\n", by decide⟩
  · apply strContains_appr
    apply strContains_appr
    apply strContains_appr
    apply strContains_appr
    apply strContains_appr
    exact ⟨_, "", by rw [String.append_empty]⟩
  · intro q hq
    apply strContains_appr
    apply strContains_appr
    apply strContains_appl
    show StrContains (strJoin " {next_question} " conv.questions) q
    exact strJoin_contains _ _ _ hq

/-- C8 witness: a concrete conversation whose chain-of-thought prompt
contains the marker, the document and the question. -/
theorem chain_of_thought_prompt_contains_witness :
    StrContains (PromptGenerator.generate_prompt chain_of_thought_generate_prompt
      ⟨"w", "DOC", ["Q1"], ["A1"], none, []⟩) "Step-by-step reasoning" ∧
    StrContains (PromptGenerator.generate_prompt chain_of_thought_generate_prompt
      ⟨"w", "DOC", ["Q1"], ["A1"], none, []⟩) "DOC" ∧
    StrContains (PromptGenerator.generate_prompt chain_of_thought_generate_prompt
      ⟨"w", "DOC", ["Q1"], ["A1"], none, []⟩) "Q1" := by
  have h := chain_of_thought_prompt_contains ⟨"w", "DOC", ["Q1"], ["A1"], none, []⟩
    chain_of_thought_generate_prompt rfl
  exact ⟨h.1, h.2.1, h.2.2 "Q1" (by simp)⟩

/-- C9: evaluating all conversations leaves every conversation record
unchanged — the state component holding the records is returned as it
was given, the evaluation only reading them and writing the report. -/
theorem evaluate_all_preserves_conversations (st : EvalState)
    (model_name prompting_strategy : String) (sample_size : Nat) :
    (evaluate_all_conversations st model_name prompting_strategy sample_size).1.all_convs =
      st.all_convs := rfl

lemma jsonGetStrs_map_str (l : List String) :
    jsonGetStrs (l.map Json.str) = some l := by
  induction l with
  | nil => rfl
  | cons x xs ih => simp [jsonGetStrs, jsonGetStr, ih]

lemma loadRecord_convToJson (c : ConvQA) :
    loadRecord (convToJson c) =
      some (c.id, c.doc, c.questions, c.answers, c.formatted_llm_response) := by
  simp [loadRecord, convToJson, List.lookup, jsonGetStr, jsonGetStrList, jsonGetStrs_map_str]

lemma loadRecords_map_convToJson (convs : List ConvQA) :
    loadRecords (convs.map convToJson) =
      some (convs.map fun c =>
        (c.id, c.doc, c.questions, c.answers, c.formatted_llm_response)) := by
  induction convs with
  | nil => rfl
  | cons c cs ih => simp [loadRecords, loadRecord_convToJson c, ih]

/-- C6: saving a non-empty list of conversations to the output JSON
format succeeds, and reloading the saved records recovers the id, doc,
questions, answers and formatted_llm_response of every conversation. -/
theorem save_load_round_trip (all_convs : List ConvQA) (h : all_convs ≠ []) :
    ∃ j, _save_conversations_to_json all_convs = .ok j ∧
      loadConversations j = some (all_convs.map fun c =>
        (c.id, c.doc, c.questions, c.answers, c.formatted_llm_response)) := by
  refine ⟨.arr (all_convs.map convToJson), ?_, ?_⟩
  · unfold _save_conversations_to_json
    rw [if_neg h]
  · unfold loadConversations
    exact loadRecords_map_convToJson all_convs

/-- C6 witness: one concrete conversation survives the save/reload
round trip. -/
theorem save_load_round_trip_witness :
    ∃ j, _save_conversations_to_json
        [⟨"i", "d", ["q"], ["a"], some "resp", ["fa"]⟩] = .ok j ∧
      loadConversations j = some [("i", "d", ["q"], ["a"], ["fa"])] :=
  save_load_round_trip [⟨"i", "d", ["q"], ["a"], some "resp", ["fa"]⟩] (by simp)

/-- C4: the extractor considers only the last bracket group: when the
group list is empty the result is `[]`; otherwise the last group is
parsed, and the result is its string values when it is a literal list
made only of strings, `[]` when parsing fails, and `[]` when some parsed
element is not a string. -/
theorem extractor_last_group_contract (s : String) :
    (findBracketGroups s.toList = [] → _extract_list_from_llm_response s = []) ∧
    (∀ pre last, findBracketGroups s.toList = pre ++ [last] →
      (pyLiteralEvalList (String.mk last) = none →
        _extract_list_from_llm_response s = []) ∧
      (∀ items, pyLiteralEvalList (String.mk last) = some items →
        (items.all PyItem.isStr = true →
          _extract_list_from_llm_response s = pyStrVals items) ∧
        (items.all PyItem.isStr = false →
          _extract_list_from_llm_response s = []))) := by
  constructor
  · intro hnone
    by_cases hs : s = ""
    · simp [_extract_list_from_llm_response, hs]
    · rw [String.toList] at hnone
      simp [_extract_list_from_llm_response, hs, hnone]
  · intro pre last hpre
    have hs' : s ≠ "" := by
      intro hs
      subst hs
      have h0 : findBracketGroups ("" : String).toList = [] := by decide
      rw [h0] at hpre
      exact absurd hpre.symm (by simp)
    rw [String.toList] at hpre
    have hlast : (findBracketGroups s.data).getLast? = some last := by
      rw [hpre]
      simp
    refine ⟨?_, ?_⟩
    · intro hparse
      simp [_extract_list_from_llm_response, hs', hlast, hparse]
    · intro items hparse
      refine ⟨?_, ?_⟩
      · intro hall
        simp [_extract_list_from_llm_response, hs', hlast, hparse, hall]
      · intro hall
        simp [_extract_list_from_llm_response, hs', hlast, hparse, hall]

/-- C4 witness: with two bracket groups only the last one, a valid
string-list literal, determines the result. -/
theorem extractor_last_group_contract_witness :
    findBracketGroups ("ignore [w] mid [\x27x\x27, \x27y\x27]").toList =
      [("[w]").toList] ++ [("[\x27x\x27, \x27y\x27]").toList] ∧
    _extract_list_from_llm_response "ignore [w] mid [\x27x\x27, \x27y\x27]" = ["x", "y"] := by
  refine ⟨by decide, ?_⟩
  have h := ((extractor_last_group_contract "ignore [w] mid [\x27x\x27, \x27y\x27]").2
    [("[w]").toList] (("[\x27x\x27, \x27y\x27]").toList) (by decide)).2
    [PyItem.str "x", PyItem.str "y"] (by decide)
  exact h.1 (by decide)

/-- C10: the extractor is a total function of the raw text: on every
input, including the empty string, it returns either `[]` or the string
values of a successfully parsed all-string literal list, so every
element of its output is a string constant from the parsed literal. -/
theorem extractor_total_string_output (s : String) :
    _extract_list_from_llm_response s = [] ∨
    ∃ items, pyLiteralEvalList
        (String.mk ((findBracketGroups s.toList).getLast?.getD [])) = some items ∧
      items.all PyItem.isStr = true ∧
      _extract_list_from_llm_response s = pyStrVals items := by
  by_cases hs : s = ""
  · left
    simp [_extract_list_from_llm_response, hs]
  · rcases hlast : (findBracketGroups s.toList).getLast? with _ | last
    · left
      have hlast' : (findBracketGroups s.data).getLast? = none := hlast
      simp [_extract_list_from_llm_response, hs, hlast']
    · have hlast' : (findBracketGroups s.data).getLast? = some last := hlast
      rcases hparse : pyLiteralEvalList (String.mk last) with _ | items
      · left
        simp [_extract_list_from_llm_response, hs, hlast', hparse]
      · by_cases hall : items.all PyItem.isStr = true
        · right
          refine ⟨items, ?_, hall, ?_⟩
          · simpa using hparse
          · simp [_extract_list_from_llm_response, hs, hlast', hparse, hall]
        · left
          simp [_extract_list_from_llm_response, hs, hlast', hparse, hall]
